import Mathlib

/-
Verification of the distributed-file-orchestration-and-synchronization
server/client (src/server.py, src/client.py) against its specification.

The Python code is shallowly embedded:
  * byte strings become `List Nat`,
  * the file system becomes an association list from resolved absolute
    paths (component lists) to byte contents,
  * a socket's incoming traffic becomes the list of chunks successive
    `recv` calls return (an exhausted list models a closed peer),
  * `pathlib` paths become component lists, with `Path.resolve()`
    modelled as lexical resolution of `.` and `..` (symlinks are outside
    the model) and `str(path)` as rendering to a character list.
Fallible operations return `Option` or carry an explicit success flag.
-/

set_option autoImplicit false

namespace DFOS

/-- CHUNK_SIZE from server.py line 17 / client.py line 10. -/
def CHUNK_SIZE : Nat := 4096

/-- EOF_MARKER, the 7-byte sentinel "<<EOF>>" as its ASCII codes, from
server.py line 18 / client.py line 11. -/
def EOF_MARKER : List Nat := [60, 60, 69, 79, 70, 62, 62]

/-! ## Paths

`pathlib` paths are embedded as lists of components.  `user_dir` is
taken already canonical (the server builds it as
`server_storage/<username>` under its working directory); a raw
filename is joined to it exactly as `user_dir / filename` does:
an absolute filename replaces the left operand, otherwise the
filename's slash-separated components are appended. -/

/-- Splits a character list at a separator character, keeping empty
pieces, as Python `str.split(sep)` does; `acc` is the piece under
construction, reversed. -/
def splitCharAux (sep : Char) : List Char → List Char → List String
  | [], acc => [String.mk acc.reverse]
  | c :: cs, acc =>
    if c = sep then String.mk acc.reverse :: splitCharAux sep cs []
    else splitCharAux sep cs (c :: acc)

/-- Python `str.split(sep)` for a one-character separator. -/
def splitOnChar (sep : Char) (s : String) : List String :=
  splitCharAux sep s.data []

/-- The non-empty slash-separated components of a raw filename, as
`pathlib` keeps them (empty pieces from repeated or trailing slashes
are dropped). -/
def splitComponents (s : String) : List String :=
  (splitOnChar '/' s).filter (fun c => decide (c ≠ ""))

/-- Whether a raw filename is absolute (starts with a slash). -/
def isAbsolute (s : String) : Bool :=
  match s.data with
  | [] => false
  | c :: _ => decide (c = '/')

/-- `user_dir / filename` of `pathlib`: an absolute right operand
replaces the left one, otherwise components are appended. -/
def joinedComponents (userDir : List String) (filename : String) : List String :=
  if isAbsolute filename then splitComponents filename
  else userDir ++ splitComponents filename

/-- One step of lexical path resolution: `.` is dropped, `..` removes
the last component (a no-op at the root), anything else is appended. -/
def resolveStep (acc : List String) (c : String) : List String :=
  if c = "." then acc
  else if c = ".." then acc.dropLast
  else acc ++ [c]

/-- Lexical `Path.resolve()`: processes `.` and `..` left to right
starting from the file-system root. -/
def resolveComps (comps : List String) : List String :=
  comps.foldl resolveStep []

/-- `str(path)` for an absolute path given by its components:
`/c1/c2/.../cn` as a character list. -/
def renderPath : List String → List Char
  | [] => []
  | c :: rest => '/' :: (c.data ++ renderPath rest)

/-- The security check of server.py lines 100, 136 and 153:
`str(file_path.resolve()).startswith(str(user_dir.resolve()))`,
where `file_path = user_dir / filename`.  Note this is a string
prefix test on the rendered paths, not a component-wise test. -/
def securityCheck (userDir : List String) (filename : String) : Bool :=
  (renderPath (resolveComps userDir)).isPrefixOf
    (renderPath (resolveComps (joinedComponents userDir filename)))

/-- The resolved absolute path a raw filename denotes inside (or
outside) a user directory: `(user_dir / filename).resolve()`. -/
def targetPath (userDir : List String) (filename : String) : List String :=
  resolveComps (joinedComponents userDir filename)

/-! ## File system -/

/-- The stored files: an association list from resolved absolute paths
to byte contents. -/
abbrev FS := List (List String × List Nat)

/-- Whether a file exists at a path. -/
def fileExists (fs : FS) (p : List String) : Bool :=
  fs.any (fun e => e.1 == p)

/-- The content stored at a path (empty if absent; only read behind an
existence check, as in the handlers). -/
def getFile (fs : FS) (p : List String) : List Nat :=
  ((fs.find? (fun e => e.1 == p)).map Prod.snd).getD []

/-- `os.remove`: drops the entry at a path. -/
def removeFile (fs : FS) (p : List String) : FS :=
  fs.filter (fun e => !(e.1 == p))

/-- `open(path, 'wb')` followed by writes: creates or truncates the
file at the path and stores the given content. -/
def setFile (fs : FS) (p : List String) (content : List Nat) : FS :=
  (p, content) :: removeFile fs p

/-! ## Responses -/

/-- A server reply record, as serialized by the handlers: a status, a
human message, and the action-specific payloads (`preview` carries the
decoded code points, `files` the listing). -/
structure Response where
  status : String
  message : String
  preview : Option (List Nat)
  files : Option (List String)
deriving DecidableEq

/-- A `{"status": "error", "message": m}` reply. -/
def errorResp (m : String) : Response := ⟨"error", m, none, none⟩

/-- A `{"status": "success", "message": m}` reply. -/
def successResp (m : String) : Response := ⟨"success", m, none, none⟩

/-! ## Transfer framing -/

/-- The receiving loop of server.py lines 70-77 (`handle_upload`): each
list element is what one `recv` returns; an empty chunk or an exhausted
list is a closed peer.  Returns the bytes written to the sink so far
and whether the sentinel was seen (the loop writes each chunk before
looking at the next one, so on failure the first component is exactly
the partial content already on disk). -/
def recvLoop : List (List Nat) → List Nat × Bool
  | [] => ([], false)
  | chunk :: rest =>
    if chunk = [] then ([], false)
    else if EOF_MARKER.isSuffixOf chunk then
      (chunk.take (chunk.length - EOF_MARKER.length), true)
    else
      (chunk ++ (recvLoop rest).1, (recvLoop rest).2)

/-- The client-side receiving loop of client.py lines 74-84
(`receive_file`): `some content` on success, `none` when the peer
closed before the sentinel (the client then removes the partial file). -/
def receive_file : List (List Nat) → Option (List Nat)
  | [] => none
  | chunk :: rest =>
    if chunk = [] then none
    else if EOF_MARKER.isSuffixOf chunk then
      some (chunk.take (chunk.length - EOF_MARKER.length))
    else (receive_file rest).map (fun w => chunk ++ w)

/-- `f.read(n)` in a loop: the successive non-empty chunks of a byte
string, each of size at most `n`. -/
def chunksOf (n : Nat) (data : List Nat) : List (List Nat) :=
  if h : n = 0 ∨ data = [] then []
  else data.take n :: chunksOf n (data.drop n)
termination_by data.length
decreasing_by
  simp only [not_or] at h
  simp only [List.length_drop]
  exact Nat.sub_lt (List.length_pos.mpr h.2) (Nat.pos_of_ne_zero h.1)

/-- The sending loop of client.py lines 50-56 (`send_file`) and
server.py lines 112-118 (`handle_download`): the content chunks
followed by the sentinel as its own final send. -/
def sendStream (data : List Nat) : List (List Nat) :=
  chunksOf CHUNK_SIZE data ++ [EOF_MARKER]

/-! ## UTF-8 decoding

`handle_preview` calls `preview.decode('utf-8', errors='ignore')`.
The decoder below embeds CPython's strict UTF-8 decoder with a
pluggable error handler: `rep = false` is `errors='ignore'` (the bytes
of an invalid subsequence produce nothing), `rep = true` is
`errors='replace'` (each maximal invalid subsequence produces U+FFFD).
On an error it consumes the maximal valid prefix of the offending
sequence (at least one byte) and resumes, as CPython does.  The output
is the list of decoded code points. -/

/-- Whether a byte is a UTF-8 continuation byte (0x80-0xBF). -/
def utf8Cont (b : Nat) : Bool :=
  decide (0x80 ≤ b) && decide (b ≤ 0xBF)

/-- The error handler: `errors='replace'` emits U+FFFD, and
`errors='ignore'` emits nothing, before the rest of the output. -/
def repl (rep : Bool) (out : List Nat) : List Nat :=
  if rep then 0xFFFD :: out else out

/-- CPython's UTF-8 decoder over byte lists (see the module comment of
this section); produces the decoded code points. -/
def decodeUtf8 (rep : Bool) : List Nat → List Nat
  | [] => []
  | b1 :: rest =>
    if b1 < 0x80 then b1 :: decodeUtf8 rep rest
    else if 0xC2 ≤ b1 ∧ b1 ≤ 0xDF then
      match rest with
      | [] => repl rep []
      | b2 :: rest2 =>
        if utf8Cont b2 then
          ((b1 - 0xC0) * 0x40 + (b2 - 0x80)) :: decodeUtf8 rep rest2
        else repl rep (decodeUtf8 rep (b2 :: rest2))
    else if 0xE0 ≤ b1 ∧ b1 ≤ 0xEF then
      match rest with
      | [] => repl rep []
      | b2 :: rest2 =>
        if (if b1 = 0xE0 then 0xA0 else 0x80) ≤ b2 ∧
            b2 ≤ (if b1 = 0xED then 0x9F else 0xBF) then
          match rest2 with
          | [] => repl rep []
          | b3 :: rest3 =>
            if utf8Cont b3 then
              ((b1 - 0xE0) * 0x1000 + (b2 - 0x80) * 0x40 + (b3 - 0x80)) ::
                decodeUtf8 rep rest3
            else repl rep (decodeUtf8 rep (b3 :: rest3))
        else repl rep (decodeUtf8 rep (b2 :: rest2))
    else if 0xF0 ≤ b1 ∧ b1 ≤ 0xF4 then
      match rest with
      | [] => repl rep []
      | b2 :: rest2 =>
        if (if b1 = 0xF0 then 0x90 else 0x80) ≤ b2 ∧
            b2 ≤ (if b1 = 0xF4 then 0x8F else 0xBF) then
          match rest2 with
          | [] => repl rep []
          | b3 :: rest3 =>
            if utf8Cont b3 then
              match rest3 with
              | [] => repl rep []
              | b4 :: rest4 =>
                if utf8Cont b4 then
                  ((b1 - 0xF0) * 0x40000 + (b2 - 0x80) * 0x1000 +
                    (b3 - 0x80) * 0x40 + (b4 - 0x80)) :: decodeUtf8 rep rest4
                else repl rep (decodeUtf8 rep (b4 :: rest4))
            else repl rep (decodeUtf8 rep (b3 :: rest3))
        else repl rep (decodeUtf8 rep (b2 :: rest2))
    else repl rep (decodeUtf8 rep rest)

/-! ## Command handlers (server.py lines 61-167)

Each handler is embedded as a pure function of the file system, the
authenticated user's directory and the raw filename.  The Python
early-return chains become nested conditionals with the same tests in
the same order. -/

/-- `handle_upload` (server.py lines 61-86).  The function first sends
the interim ready Response and then writes received chunks to
`user_dir / filename` as they arrive — with NO sandbox check on the
filename.  When the receive loop sees the sentinel it reports success;
when the peer closes first (`if not chunk`) it returns the error
Response from inside the `with open` block, so the partially written
file stays on disk (the `except` branch, which does delete the file,
only runs on a raised exception — an external I/O failure outside this
model).  Returns the final Response and the resulting file system. -/
def handle_upload (fs : FS) (userDir : List String) (filename : String)
    (chunks : List (List Nat)) : Response × FS :=
  let target := targetPath userDir filename
  let recvd := recvLoop chunks
  if recvd.2 then
    (successResp ("File " ++ filename ++ " uploaded successfully"),
      setFile fs target recvd.1)
  else
    (errorResp "Connection lost during transfer", setFile fs target recvd.1)

/-- `handle_download` (server.py lines 88-126): existence check first,
then the security check, then the interim "Starting file transfer"
Response followed by the streamed chunks (returned here alongside the
final Response; the 0.1s scheduling sleep has no functional content). -/
def handle_download (fs : FS) (userDir : List String) (filename : String) :
    Response × List (List Nat) :=
  let target := targetPath userDir filename
  if fileExists fs target then
    if securityCheck userDir filename then
      (successResp "File sent successfully", sendStream (getFile fs target))
    else
      (errorResp "Access denied: You can only access files in your directory", [])
  else (errorResp "File not found in your directory", [])

/-- `handle_preview` (server.py lines 128-143): existence check,
security check, then `f.read(1024)` decoded with
`decode('utf-8', errors='ignore')` in a success Response. -/
def handle_preview (fs : FS) (userDir : List String) (filename : String) : Response :=
  let target := targetPath userDir filename
  if fileExists fs target then
    if securityCheck userDir filename then
      ⟨"success", "", some (decodeUtf8 false ((getFile fs target).take 1024)), none⟩
    else errorResp "Access denied"
  else errorResp "File not found"

/-- `handle_delete` (server.py lines 145-159): existence check,
security check, then `os.remove`. -/
def handle_delete (fs : FS) (userDir : List String) (filename : String) :
    Response × FS :=
  let target := targetPath userDir filename
  if fileExists fs target then
    if securityCheck userDir filename then
      (successResp ("File " ++ filename ++ " deleted successfully"),
        removeFile fs target)
    else (errorResp "Access denied", fs)
  else (errorResp "File not found", fs)

/-- `list_files` (server.py lines 161-167): the names of the entries
directly under the user directory (the model stores only regular
files, so the `is_file()` filter is identity here).  The `except`
branch (unreadable directory) is an external I/O failure outside this
model; the session only reaches `list` after the directory was
created at authentication. -/
def list_files (fs : FS) (userDir : List String) : Response :=
  ⟨"success", "", none,
    some (fs.filterMap (fun e =>
      if e.1.dropLast == userDir then e.1.getLast? else none))⟩

/-! ## Authentication (server.py lines 48-59) -/

/-- Python `str.isspace` on the characters `str.strip()` removes. -/
def pySpace (c : Char) : Bool :=
  c == ' ' || c == '\t' || c == '\n' || c == '\r' || c == '\x0b' || c == '\x0c'

/-- Python `str.strip()`: removes leading and trailing whitespace. -/
def pyStrip (s : String) : String :=
  String.mk (((s.data.dropWhile pySpace).reverse.dropWhile pySpace).reverse)

/-- `line.strip().split(":")` unpacked into exactly two fields:
`some (user, pwd)` when the stripped line has exactly one colon,
`none` when the unpacking raises `ValueError`. -/
def parseLine (line : String) : Option (String × String) :=
  match splitOnChar ':' (pyStrip line) with
  | [u, p] => some (u, p)
  | _ => none

/-- The line loop of `authenticate_user`: a line that fails to unpack
raises, the surrounding `except` catches it and the whole call returns
`False` — so a malformed line stops the scan even if a matching line
follows it.  A matching line returns `True`; a well-formed
non-matching line moves on. -/
def authLoop (username password : String) : List String → Bool
  | [] => false
  | line :: rest =>
    match parseLine line with
    | none => false
    | some (su, sp) =>
      if su = username ∧ sp = password then true
      else authLoop username password rest

/-- `authenticate_user` (server.py lines 48-59).  The credential file
is `none` when `open("id_passwd.txt")` raises (missing or unreadable
file; the `except` returns `False`), otherwise its list of lines. -/
def authenticate_user (credFile : Option (List String))
    (username password : String) : Bool :=
  match credFile with
  | none => false
  | some lines => authLoop username password lines

/-! ## Session command dispatch (server.py lines 169-248)

The command loop of `handle_client` is embedded one iteration at a
time.  A decoded command record may lack the `action` or `filename`
key; accessing a missing key raises `KeyError`, which the generic
`except Exception` of the loop catches and then breaks — tearing the
session down without a Response.  `json.JSONDecodeError` on the wire
data likewise breaks the loop; both are `teardown` below. -/

/-- A decoded Command record: either key may be missing. -/
structure Command where
  action : Option String
  filename : Option String
deriving DecidableEq

/-- The fate of one command-loop iteration: a Response is sent and the
loop continues (`reply`), a transfer handler already exchanged its own
Responses and the loop continues (`transfer`), the loop breaks on
`exit` (`exitLoop`), or an exception breaks the loop with no Response
(`teardown`). -/
inductive StepResult
  | reply (r : Response) (fs : FS)
  | transfer (r : Response) (fs : FS)
  | exitLoop (fs : FS)
  | teardown (fs : FS)
deriving DecidableEq

/-- One iteration of the command loop (server.py lines 200-235):
`response = {"status": "error", "message": "Invalid command"}` is the
default; the `elif` chain consults `command["action"]` (a missing key
raises, hence `teardown`) and each filename-bearing branch consults
`command["filename"]` (likewise).  `uploadChunks` is the traffic an
upload body would consume. -/
def dispatch (fs : FS) (userDir : List String)
    (uploadChunks : List (List Nat)) (cmd : Command) : StepResult :=
  match cmd.action with
  | none => .teardown fs
  | some a =>
    if a = "upload" then
      match cmd.filename with
      | none => .teardown fs
      | some f =>
        let r := handle_upload fs userDir f uploadChunks
        .transfer r.1 r.2
    else if a = "download" then
      match cmd.filename with
      | none => .teardown fs
      | some f => .transfer (handle_download fs userDir f).1 fs
    else if a = "preview" then
      match cmd.filename with
      | none => .teardown fs
      | some f => .reply (handle_preview fs userDir f) fs
    else if a = "delete" then
      match cmd.filename with
      | none => .teardown fs
      | some f =>
        let r := handle_delete fs userDir f
        .reply r.1 r.2
    else if a = "list" then .reply (list_files fs userDir) fs
    else if a = "exit" then .exitLoop fs
    else .reply (errorResp "Invalid command") fs

/-! ## Authentication step of the session (server.py lines 187-197) -/

/-- `ensure_user_directory` (server.py lines 42-46):
`mkdir(parents=True, exist_ok=True)` creates `server_storage` and
`server_storage/<username>` when absent; `dirs` is the set of existing
directories. -/
def ensure_user_directory (dirs : List (List String)) (username : String) :
    List (List String) :=
  let base : List String := ["server_storage"]
  let userdir : List String := ["server_storage", username]
  let dirs1 := if base ∈ dirs then dirs else dirs ++ [base]
  if userdir ∈ dirs1 then dirs1 else dirs1 ++ [userdir]

/-- The outcome of the single authentication exchange: `ready` carries
the sandbox directory, the directory set after the idempotent create,
and the Responses sent; `terminated` carries the Responses sent before
the connection handler returns. -/
inductive AuthOutcome
  | ready (userDir : List String) (dirs : List (List String))
      (responses : List Response)
  | terminated (responses : List Response)
deriving DecidableEq

/-- The authentication section of `handle_client` (server.py lines
187-197): exactly one credential record is read per connection (there
is no loop around it); on a match the user directory is ensured and a
success Response sent, otherwise a single error Response is sent and
the handler returns, terminating the session. -/
def authStep (credFile : Option (List String)) (dirs : List (List String))
    (username password : String) : AuthOutcome :=
  if authenticate_user credFile username password then
    .ready ["server_storage", username] (ensure_user_directory dirs username)
      [successResp "Authentication successful"]
  else .terminated [errorResp "Authentication failed"]

/-! ## Framing lemmas -/

/-- Concatenating the chunks of a byte string restores it. -/
theorem flatten_chunksOf (n : Nat) (hn : n ≠ 0) :
    ∀ (data : List Nat), (chunksOf n data).flatten = data := by
  intro data
  induction data using chunksOf.induct n with
  | case1 d h =>
    rcases h with h | h
    · exact absurd h hn
    · subst h; rw [chunksOf]; simp
  | case2 d h ih =>
    rw [chunksOf, dif_neg h, List.flatten_cons, ih, List.take_append_drop]

/-- Every chunk a read loop produces is non-empty and at most the
chunk size. -/
theorem chunksOf_sizes (n : Nat) :
    ∀ (data : List Nat), ∀ c ∈ chunksOf n data, c ≠ [] ∧ c.length ≤ n := by
  intro data
  induction data using chunksOf.induct n with
  | case1 d h => rw [chunksOf, dif_pos h]; intro c hc; cases hc
  | case2 d h ih =>
    rw [chunksOf, dif_neg h]
    simp only [not_or] at h
    intro c hc
    rcases List.mem_cons.mp hc with rfl | hc
    · refine ⟨?_, by simp⟩
      simp only [ne_eq, List.take_eq_nil_iff, not_or]
      exact ⟨h.1, h.2⟩
    · exact ih c hc

/-- The server receive loop, fed non-empty chunks none of which ends
in the sentinel and then the sentinel chunk, writes exactly their
concatenation and reports success. -/
theorem recvLoop_chunks_eof (chunks : List (List Nat))
    (h : ∀ c ∈ chunks, c ≠ [] ∧ EOF_MARKER.isSuffixOf c = false) :
    recvLoop (chunks ++ [EOF_MARKER]) = (chunks.flatten, true) := by
  induction chunks with
  | nil => simp [recvLoop]; decide
  | cons c cs ih =>
    have hc := h c (List.mem_cons_self c cs)
    rw [List.cons_append, recvLoop]
    rw [if_neg hc.1, if_neg (by simp [hc.2])]
    rw [ih (fun d hd => h d (List.mem_cons_of_mem c hd))]
    simp

/-- The client receive loop behaves the same way on such traffic. -/
theorem receive_file_chunks_eof (chunks : List (List Nat))
    (h : ∀ c ∈ chunks, c ≠ [] ∧ EOF_MARKER.isSuffixOf c = false) :
    receive_file (chunks ++ [EOF_MARKER]) = some chunks.flatten := by
  induction chunks with
  | nil => simp [receive_file]; decide
  | cons c cs ih =>
    have hc := h c (List.mem_cons_self c cs)
    rw [List.cons_append, receive_file]
    rw [if_neg hc.1, if_neg (by simp [hc.2])]
    rw [ih (fun d hd => h d (List.mem_cons_of_mem c hd))]
    simp

/-- C5: for every byte sequence whose framing produces no chunk with
the sentinel as a trailing substring at a chunk boundary, the framed
stream is decoded back to exactly the original bytes — by the server's
upload receive loop and by the client's download receive loop alike —
so uploading and then downloading such content is byte-identical. -/
theorem framing_roundtrip (data : List Nat)
    (h : ∀ c ∈ chunksOf CHUNK_SIZE data, EOF_MARKER.isSuffixOf c = false) :
    recvLoop (sendStream data) = (data, true) ∧
    receive_file (sendStream data) = some data := by
  have h' : ∀ c ∈ chunksOf CHUNK_SIZE data,
      c ≠ [] ∧ EOF_MARKER.isSuffixOf c = false :=
    fun c hc => ⟨(chunksOf_sizes CHUNK_SIZE data c hc).1, h c hc⟩
  have hfl := flatten_chunksOf CHUNK_SIZE (by decide) data
  rw [sendStream, recvLoop_chunks_eof _ h', receive_file_chunks_eof _ h', hfl]
  exact ⟨rfl, rfl⟩

/-- Witness for C5 at the five bytes of "hello". -/
theorem framing_roundtrip_witness :
    recvLoop (sendStream [104, 101, 108, 108, 111])
        = ([104, 101, 108, 108, 111], true) ∧
    receive_file (sendStream [104, 101, 108, 108, 111])
        = some [104, 101, 108, 108, 111] := by
  have hch : chunksOf CHUNK_SIZE [104, 101, 108, 108, 111]
      = [[104, 101, 108, 108, 111]] := by
    rw [chunksOf, dif_neg (by decide), List.take_of_length_le (by decide),
      List.drop_eq_nil_of_le (by decide), chunksOf, dif_pos (Or.inr rfl)]
  exact framing_roundtrip [104, 101, 108, 108, 111] (by
    rw [hch]
    intro c hc
    rw [List.mem_singleton] at hc
    subst hc
    decide)

/-! ## Path resolution lemmas -/

/-- Splitting a character list free of the separator yields the single
piece made of the accumulator and the remaining characters. -/
theorem splitCharAux_no_sep (sep : Char) :
    ∀ (l acc : List Char), sep ∉ l →
      splitCharAux sep l acc = [String.mk (acc.reverse ++ l)] := by
  intro l
  induction l with
  | nil => intro acc _; simp [splitCharAux]
  | cons c cs ih =>
    intro acc h
    have hcs : c ≠ sep := by
      intro hc
      exact h (by rw [← hc]; exact List.mem_cons_self c cs)
    rw [splitCharAux, if_neg hcs]
    rw [ih (c :: acc) (fun hc => h (List.mem_cons_of_mem c hc))]
    simp

/-- A plain filename (non-empty, without slashes) splits into itself. -/
theorem splitComponents_plain (f : String) (h1 : '/' ∉ f.data) (h2 : f ≠ "") :
    splitComponents f = [f] := by
  rw [splitComponents, splitOnChar, splitCharAux_no_sep '/' f.data [] h1]
  have : String.mk f.data = f := by cases f; rfl
  rw [List.reverse_nil, List.nil_append, this, List.filter_cons]
  simp [h2]

/-- Resolution leaves a dot-free component list unchanged. -/
theorem foldl_resolveStep_noDots :
    ∀ (l acc : List String), (∀ c ∈ l, c ≠ "." ∧ c ≠ "..") →
      List.foldl resolveStep acc l = acc ++ l := by
  intro l
  induction l with
  | nil => intro acc _; simp
  | cons c cs ih =>
    intro acc h
    have hc := h c (List.mem_cons_self c cs)
    rw [List.foldl_cons, resolveStep, if_neg hc.1, if_neg hc.2]
    rw [ih _ (fun d hd => h d (List.mem_cons_of_mem c hd))]
    simp

/-- `resolveComps` is the identity on dot-free component lists. -/
theorem resolveComps_noDots (l : List String)
    (h : ∀ c ∈ l, c ≠ "." ∧ c ≠ "..") : resolveComps l = l := by
  rw [resolveComps, foldl_resolveStep_noDots l [] h, List.nil_append]

/-- A filename without slashes is not absolute. -/
theorem isAbsolute_plain (f : String) (h : '/' ∉ f.data) :
    isAbsolute f = false := by
  cases hd : f.data with
  | nil => rw [isAbsolute, hd]
  | cons c cs =>
    have hc : c ≠ '/' := by
      intro hc
      refine h ?_
      rw [hd, hc]
      exact List.mem_cons_self _ _
    rw [isAbsolute, hd]
    simp [hc]

/-- A plain filename joined to a dot-free user directory resolves to
the file directly under that directory. -/
theorem targetPath_plain (userDir : List String) (f : String)
    (hud : ∀ c ∈ userDir, c ≠ "." ∧ c ≠ "..")
    (h1 : '/' ∉ f.data) (h2 : f ≠ "") (h3 : f ≠ ".") (h4 : f ≠ "..") :
    targetPath userDir f = userDir ++ [f] := by
  rw [targetPath, joinedComponents, isAbsolute_plain f h1]
  rw [if_neg (by simp), splitComponents_plain f h1 h2]
  refine resolveComps_noDots _ ?_
  intro c hc
  rcases List.mem_append.mp hc with hc | hc
  · exact hud c hc
  · rw [List.mem_singleton] at hc
    subst hc
    exact ⟨h3, h4⟩

/-- C10: uploading a zero-byte file succeeds — the client sends only
the sentinel marker, the server's receive loop strips it and writes
zero content bytes, a zero-byte file is stored directly under the
user's sandbox root, and a success Response is reported. -/
theorem zero_byte_upload (fs : FS) (userDir : List String) (fname : String)
    (hud : ∀ c ∈ userDir, c ≠ "." ∧ c ≠ "..")
    (h1 : '/' ∉ fname.data) (h2 : fname ≠ "") (h3 : fname ≠ ".")
    (h4 : fname ≠ "..") :
    sendStream [] = [EOF_MARKER] ∧
    recvLoop [EOF_MARKER] = ([], true) ∧
    handle_upload fs userDir fname (sendStream [])
      = (successResp ("File " ++ fname ++ " uploaded successfully"),
          setFile fs (userDir ++ [fname]) []) ∧
    userDir <+: userDir ++ [fname] := by
  have hsend : sendStream [] = [EOF_MARKER] := by
    rw [sendStream, chunksOf, dif_pos (Or.inr rfl), List.nil_append]
  have hrecv : recvLoop [EOF_MARKER] = ([], true) := by decide
  refine ⟨hsend, hrecv, ?_, List.prefix_append userDir [fname]⟩
  rw [handle_upload, hsend, hrecv,
    targetPath_plain userDir fname hud h1 h2 h3 h4]
  simp

/-- Witness for C10: user alice uploads the empty file "empty.txt". -/
theorem zero_byte_upload_witness :
    sendStream [] = [EOF_MARKER] ∧
    recvLoop [EOF_MARKER] = ([], true) ∧
    handle_upload [] ["srv", "server_storage", "alice"] "empty.txt" (sendStream [])
      = (successResp "File empty.txt uploaded successfully",
          setFile [] (["srv", "server_storage", "alice"] ++ ["empty.txt"]) []) ∧
    ["srv", "server_storage", "alice"]
      <+: ["srv", "server_storage", "alice"] ++ ["empty.txt"] :=
  zero_byte_upload [] ["srv", "server_storage", "alice"] "empty.txt"
    (by decide) (by decide) (by decide) (by decide) (by decide)

/-- C1 (code bug): `handle_upload` never consults the Path Sandbox
Guard — the filename is joined naively (server.py line 68) and the
chunks are written there.  At the failing input, user alice uploads
under the raw filename "../evil.txt"; the transfer succeeds and the
file is created at /srv/server_storage/evil.txt, which is outside the
sandbox root /srv/server_storage/alice (not a descendant of it), even
though the security check used by the other handlers rejects this very
filename. -/
theorem upload_writes_outside_sandbox :
    handle_upload [] ["srv", "server_storage", "alice"] "../evil.txt"
        [[104, 105], EOF_MARKER]
      = (successResp "File ../evil.txt uploaded successfully",
          [(["srv", "server_storage", "evil.txt"], [104, 105])]) ∧
    targetPath ["srv", "server_storage", "alice"] "../evil.txt"
      = ["srv", "server_storage", "evil.txt"] ∧
    List.isPrefixOf ["srv", "server_storage", "alice"]
      ["srv", "server_storage", "evil.txt"] = false ∧
    securityCheck ["srv", "server_storage", "alice"] "../evil.txt" = false := by
  decide

/-- C3 (code bug): when the peer closes before the sentinel, the
receive loop of `handle_upload` returns the error Response from inside
the `with open` block (server.py line 73) without deleting the partial
file — the cleanup only runs in the `except` branch.  At the failing
input, the connection drops after one sentinel-free chunk: the server
reports "Connection lost during transfer" yet the partial artifact
remains stored in the user's sandbox. -/
theorem upload_abort_keeps_partial_file :
    handle_upload [] ["srv", "server_storage", "alice"] "notes.txt" [[1, 2, 3]]
      = (errorResp "Connection lost during transfer",
          [(["srv", "server_storage", "alice", "notes.txt"], [1, 2, 3])]) ∧
    fileExists
      (handle_upload [] ["srv", "server_storage", "alice"] "notes.txt"
        [[1, 2, 3]]).2
      ["srv", "server_storage", "alice", "notes.txt"] = true := by
  decide

/-! ## The security check as a string-prefix test (C2) -/

/-- Prefix order between two rendered tails that both continue with a
separator-led remainder: either the separator-free heads agree and the
remainders are ordered, or the left remainder is empty and its head is
a character-level prefix of the right head. -/
theorem sep_append_prefix_iff (A B : List Char)
    (hA : A = [] ∨ ∃ T, A = '/' :: T) (hB : B = [] ∨ ∃ T, B = '/' :: T) :
    ∀ (u v : List Char), '/' ∉ u → '/' ∉ v →
      ((u ++ A <+: v ++ B) ↔ (u = v ∧ A <+: B) ∨ (A = [] ∧ u <+: v)) := by
  intro u
  induction u with
  | nil =>
    intro v _ hv
    rcases hA with rfl | ⟨T, rfl⟩
    · simp
    · cases v with
      | nil => simp
      | cons b v' =>
        have hb : '/' ≠ b := by
          intro hb
          exact hv (by rw [hb]; exact List.mem_cons_self _ _)
        rw [List.nil_append, List.cons_append, List.cons_prefix_cons]
        simp [hb]
  | cons a u' ih =>
    intro v hu hv
    have ha : a ≠ '/' := by
      intro h
      exact hu (by rw [← h]; exact List.mem_cons_self _ _)
    cases v with
    | nil =>
      rcases hB with rfl | ⟨T, rfl⟩
      · simp [List.prefix_nil]
      · rw [List.cons_append, List.nil_append, List.cons_prefix_cons]
        simp [ha, List.prefix_nil]
    | cons b v' =>
      rw [List.cons_append, List.cons_append, List.cons_prefix_cons]
      rw [ih v' (fun h => hu (List.mem_cons_of_mem _ h))
        (fun h => hv (List.mem_cons_of_mem _ h))]
      constructor
      · rintro ⟨rfl, (⟨rfl, hAB⟩ | ⟨rfl, hpre⟩)⟩
        · exact Or.inl ⟨rfl, hAB⟩
        · exact Or.inr ⟨rfl, List.cons_prefix_cons.mpr ⟨rfl, hpre⟩⟩
      · rintro (⟨heq, hAB⟩ | ⟨rfl, hpre⟩)
        · injection heq with h1 h2
          subst h1
          subst h2
          exact ⟨rfl, Or.inl ⟨rfl, hAB⟩⟩
        · obtain ⟨rfl, hpre'⟩ := List.cons_prefix_cons.mp hpre
          exact ⟨rfl, Or.inr ⟨rfl, hpre'⟩⟩

/-- A rendered path is the empty string only for the root. -/
theorem renderPath_eq_nil_iff (r : List String) : renderPath r = [] ↔ r = [] := by
  cases r <;> simp [renderPath]

/-- A rendered non-root path starts with a slash. -/
theorem renderPath_shape (r : List String) :
    renderPath r = [] ∨ ∃ T, renderPath r = '/' :: T := by
  cases r with
  | nil => exact Or.inl rfl
  | cons c rest => exact Or.inr ⟨c.data ++ renderPath rest, rfl⟩

/-- One component step of the string-prefix comparison of two
rendered paths. -/
theorem renderPath_cons_prefix_iff (x y : String) (r c : List String)
    (hx : '/' ∉ x.data) (hy : '/' ∉ y.data) :
    (renderPath (x :: r) <+: renderPath (y :: c)) ↔
      (x = y ∧ (renderPath r <+: renderPath c)) ∨ (r = [] ∧ x.data <+: y.data) := by
  show ('/' :: (x.data ++ renderPath r)) <+: ('/' :: (y.data ++ renderPath c)) ↔ _
  rw [List.cons_prefix_cons]
  rw [sep_append_prefix_iff (renderPath r) (renderPath c)
    (renderPath_shape r) (renderPath_shape c) x.data y.data hx hy]
  rw [renderPath_eq_nil_iff]
  constructor
  · rintro ⟨-, h | h⟩
    · exact Or.inl ⟨String.ext_iff.mpr h.1, h.2⟩
    · exact Or.inr h
  · rintro (h | h)
    · exact ⟨rfl, Or.inl ⟨String.ext_iff.mp h.1, h.2⟩⟩
    · exact ⟨rfl, Or.inr h⟩


/-- What `startswith` on rendered paths really decides: the root path
is a string prefix of the candidate path iff the root is empty or the
candidate agrees with the root on all but its last component and, in
that position, carries a component of which the root's last component
is a character-level prefix (equality included, which is exactly the
descendant-or-equal case). -/
theorem renderPath_prefix_characterization :
    ∀ (r c : List String), (∀ s ∈ r, '/' ∉ s.data) → (∀ s ∈ c, '/' ∉ s.data) →
      ((renderPath r <+: renderPath c) ↔
        (r = [] ∨ ∃ s a b t, r = s ++ [a] ∧ c = s ++ [b] ++ t ∧
          a.data <+: b.data)) := by
  intro r
  induction r with
  | nil =>
    intro c _ _
    simp [renderPath, List.nil_prefix]
  | cons x r' ih =>
    intro c hr hc
    cases c with
    | nil =>
      constructor
      · intro h
        exact absurd (List.prefix_nil.mp h) (by simp [renderPath])
      · rintro (h | ⟨s, a, b, t, hsa, hsb, -⟩)
        · cases h
        · exact absurd hsb (by simp)
    | cons y c' =>
      rw [renderPath_cons_prefix_iff x y r' c'
        (hr x (List.mem_cons_self _ _)) (hc y (List.mem_cons_self _ _))]
      rw [ih c' (fun s hs => hr s (List.mem_cons_of_mem _ hs))
        (fun s hs => hc s (List.mem_cons_of_mem _ hs))]
      constructor
      · rintro (⟨rfl, (rfl | ⟨s, a, b, t, rfl, rfl, hab⟩)⟩ | ⟨rfl, hxy⟩)
        · exact Or.inr ⟨[], x, x, c', rfl, rfl, List.prefix_refl _⟩
        · exact Or.inr ⟨x :: s, a, b, t, rfl, rfl, hab⟩
        · exact Or.inr ⟨[], x, y, c', rfl, rfl, hxy⟩
      · rintro (h | ⟨s, a, b, t, hsa, hsb, hab⟩)
        · cases h
        · cases s with
          | nil =>
            injection hsa with h1 h2
            injection hsb with h3 h4
            subst h1; subst h2; subst h3; subst h4
            exact Or.inr ⟨rfl, hab⟩
          | cons z s' =>
            injection hsa with h1 h2
            injection hsb with h3 h4
            subst h1
            subst h3
            exact Or.inl ⟨rfl, Or.inr ⟨s', a, b, t, h2, h4, hab⟩⟩


/-- Resolution introduces no new components. -/
theorem mem_foldl_resolveStep :
    ∀ (l acc : List String) (x : String),
      x ∈ List.foldl resolveStep acc l → x ∈ acc ∨ x ∈ l := by
  intro l
  induction l with
  | nil => intro acc x h; exact Or.inl h
  | cons c cs ih =>
    intro acc x h
    rcases ih (resolveStep acc c) x h with h' | h'
    · rw [resolveStep] at h'
      split at h'
      · exact Or.inl h'
      · split at h'
        · exact Or.inl (List.dropLast_subset acc h')
        · rcases List.mem_append.mp h' with h'' | h''
          · exact Or.inl h''
          · rw [List.mem_singleton] at h''
            subst h''
            exact Or.inr (List.mem_cons_self _ _)
    · exact Or.inr (List.mem_cons_of_mem _ h')

/-- Every component of a resolved path is a component of the input. -/
theorem mem_resolveComps (l : List String) (x : String)
    (h : x ∈ resolveComps l) : x ∈ l := by
  rcases mem_foldl_resolveStep l [] x h with h' | h'
  · cases h'
  · exact h'

/-- Splitting at a separator yields separator-free pieces. -/
theorem splitCharAux_sep_free (sep : Char) :
    ∀ (l acc : List Char), sep ∉ acc →
      ∀ s ∈ splitCharAux sep l acc, sep ∉ s.data := by
  intro l
  induction l with
  | nil =>
    intro acc hacc s hs
    rw [splitCharAux, List.mem_singleton] at hs
    subst hs
    intro hmem
    exact hacc (List.mem_reverse.mp hmem)
  | cons c cs ih =>
    intro acc hacc s hs
    rw [splitCharAux] at hs
    by_cases hc : c = sep
    · rw [if_pos hc] at hs
      rcases List.mem_cons.mp hs with rfl | hs'
      · intro hmem
        exact hacc (List.mem_reverse.mp hmem)
      · exact ih [] (by simp) s hs'
    · rw [if_neg hc] at hs
      refine ih (c :: acc) ?_ s hs
      intro hmem
      rcases List.mem_cons.mp hmem with h | h
      · exact hc h.symm
      · exact hacc h

/-- Filename components contain no slash. -/
theorem splitComponents_sep_free (f : String) :
    ∀ s ∈ splitComponents f, '/' ∉ s.data := by
  intro s hs
  exact splitCharAux_sep_free '/' f.data [] (by simp) s
    (List.mem_of_mem_filter hs)

/-- Joining a slash-free user directory with a raw filename yields
slash-free components. -/
theorem joinedComponents_sep_free (ud : List String) (f : String)
    (hud : ∀ s ∈ ud, '/' ∉ s.data) :
    ∀ s ∈ joinedComponents ud f, '/' ∉ s.data := by
  intro s hs
  rw [joinedComponents] at hs
  split at hs
  · exact splitComponents_sep_free f s hs
  · rcases List.mem_append.mp hs with h | h
    · exact hud s h
    · exact splitComponents_sep_free f s h

/-- C2 (amended): the path check used by download, preview and delete
accepts a candidate iff the canonicalized root is empty or the
canonicalized candidate path agrees with the root on every component
except that at the root's last component the candidate carries a
component of which that last component is a string prefix.  Every path
equal to or a descendant of the root is therefore accepted (second
conjunct), and escapes such as `../../etc/passwd` whose resolution
breaks this string-prefix relation are rejected — but a sibling
directory whose name extends the root's last component is wrongly
accepted, so the original equal-or-descendant reading is false. -/
theorem securityCheck_characterization (userDir : List String) (filename : String)
    (hud : ∀ s ∈ userDir, '/' ∉ s.data) :
    (securityCheck userDir filename = true ↔
      (resolveComps userDir = [] ∨
        ∃ s a b t, resolveComps userDir = s ++ [a] ∧
          targetPath userDir filename = s ++ [b] ++ t ∧
          a.data <+: b.data)) ∧
    (∀ rest, targetPath userDir filename = resolveComps userDir ++ rest →
      securityCheck userDir filename = true) := by
  have h1 : ∀ s ∈ resolveComps userDir, '/' ∉ s.data :=
    fun s hs => hud s (mem_resolveComps _ _ hs)
  have h2 : ∀ s ∈ targetPath userDir filename, '/' ∉ s.data :=
    fun s hs =>
      joinedComponents_sep_free userDir filename hud s (mem_resolveComps _ _ hs)
  have hiff := renderPath_prefix_characterization (resolveComps userDir)
    (targetPath userDir filename) h1 h2
  have hsc : securityCheck userDir filename = true ↔
      (renderPath (resolveComps userDir) <+:
        renderPath (targetPath userDir filename)) :=
    List.isPrefixOf_iff_prefix
  constructor
  · rw [hsc]
    exact hiff
  · intro rest h
    rw [hsc, hiff]
    rcases List.eq_nil_or_concat (resolveComps userDir) with hnil | ⟨L, b, hLb⟩
    · exact Or.inl hnil
    · refine Or.inr ⟨L, b, b, rest, ?_, ?_, List.prefix_refl _⟩
      · rw [hLb, List.concat_eq_append]
      · rw [h, hLb, List.concat_eq_append]

/-- Witness for C2 (amended): a genuine descendant, alice's file
docs/a.txt, is accepted by the check. -/
theorem securityCheck_characterization_witness :
    securityCheck ["srv", "server_storage", "alice"] "docs/a.txt" = true :=
  (securityCheck_characterization ["srv", "server_storage", "alice"] "docs/a.txt"
    (by decide)).2 ["docs", "a.txt"] (by decide)

/-- C2 (counterexample): with sandbox root /srv/server_storage/alice,
the raw filename ../alice_secrets/key.txt resolves to the sibling
directory path /srv/server_storage/alice_secrets/key.txt — not equal
to nor a descendant of the root — yet the check accepts it, refuting
the claimed accept-iff-descendant equivalence (while the traversal
../../etc/passwd is, as claimed, rejected). -/
theorem securityCheck_accepts_sibling_directory :
    securityCheck ["srv", "server_storage", "alice"] "../alice_secrets/key.txt"
        = true ∧
    targetPath ["srv", "server_storage", "alice"] "../alice_secrets/key.txt"
      = ["srv", "server_storage", "alice_secrets", "key.txt"] ∧
    List.isPrefixOf (resolveComps ["srv", "server_storage", "alice"])
      (targetPath ["srv", "server_storage", "alice"] "../alice_secrets/key.txt")
        = false ∧
    securityCheck ["srv", "server_storage", "alice"] "../../etc/passwd" = false := by
  decide


/-! ## Command-loop error handling (C4) -/

/-- C4 (amended): a decodable Command with a present but unknown
action yields the generic "Invalid command" error Response and the
session stays in Ready; but a Command whose action key is missing, or
whose action is filename-bearing (upload, download, preview, delete)
with the filename key missing, raises KeyError, which the loop's
generic exception handler turns into a session teardown with no
Response — the same fate as a malformed wire frame. -/
theorem dispatch_invalid_command (fs : FS) (userDir : List String)
    (up : List (List Nat)) (cmd : Command) :
    (∀ a, cmd.action = some a →
      a ≠ "upload" → a ≠ "download" → a ≠ "preview" → a ≠ "delete" →
      a ≠ "list" → a ≠ "exit" →
      dispatch fs userDir up cmd = .reply (errorResp "Invalid command") fs) ∧
    (cmd.action = none → dispatch fs userDir up cmd = .teardown fs) ∧
    (∀ a, cmd.action = some a →
      (a = "upload" ∨ a = "download" ∨ a = "preview" ∨ a = "delete") →
      cmd.filename = none → dispatch fs userDir up cmd = .teardown fs) := by
  refine ⟨?_, ?_, ?_⟩
  · intro a ha h1 h2 h3 h4 h5 h6
    simp only [dispatch, ha]
    simp [h1, h2, h3, h4, h5, h6]
  · intro ha
    simp only [dispatch, ha]
  · intro a ha hcase hfn
    simp only [dispatch, ha, hfn]
    rcases hcase with rfl | rfl | rfl | rfl <;> simp

/-- Witness for C4 (amended): an unknown action is answered and the
loop survives; a missing action key and a missing filename on a
preview both tear the session down. -/
theorem dispatch_invalid_command_witness :
    dispatch [] ["srv", "server_storage", "alice"] [] ⟨some "chmod", none⟩
      = .reply (errorResp "Invalid command") [] ∧
    dispatch [] ["srv", "server_storage", "alice"] [] ⟨none, some "a.txt"⟩
      = .teardown [] ∧
    dispatch [] ["srv", "server_storage", "alice"] [] ⟨some "preview", none⟩
      = .teardown [] :=
  ⟨(dispatch_invalid_command [] ["srv", "server_storage", "alice"] []
      ⟨some "chmod", none⟩).1 "chmod" rfl (by decide) (by decide) (by decide)
      (by decide) (by decide) (by decide),
   (dispatch_invalid_command [] ["srv", "server_storage", "alice"] []
      ⟨none, some "a.txt"⟩).2.1 rfl,
   (dispatch_invalid_command [] ["srv", "server_storage", "alice"] []
      ⟨some "preview", none⟩).2.2 "preview" rfl (Or.inr (Or.inr (Or.inl rfl))) rfl⟩

/-- C4 (counterexample): the structurally invalid Command
`{"action": "delete"}` — a required filename that is absent — does not
produce an error Response with the session remaining in Ready; the
KeyError tears the session down with no Response at all. -/
theorem dispatch_missing_filename_tears_down :
    dispatch [] ["srv", "server_storage", "alice"] [] ⟨some "delete", none⟩
      = .teardown [] ∧
    dispatch [] ["srv", "server_storage", "alice"] [] ⟨some "delete", none⟩
      ≠ .reply (errorResp "Invalid command") [] := by
  decide

/-! ## Preview (C6) -/

/-- C6 (amended): for every stored file that exists in the user's
sandbox and passes the security check, preview reads at most the first
1024 bytes, decodes them as best-effort text in which undecodable
bytes are DROPPED (`errors='ignore'` — not replaced; the decode is a
total function, so never fatal), and returns the result in a success
Response. -/
theorem preview_bounded_best_effort (fs : FS) (userDir : List String)
    (filename : String)
    (hex : fileExists fs (targetPath userDir filename) = true)
    (hsec : securityCheck userDir filename = true) :
    handle_preview fs userDir filename
      = ⟨"success", "",
          some (decodeUtf8 false
            ((getFile fs (targetPath userDir filename)).take 1024)), none⟩ ∧
    ((getFile fs (targetPath userDir filename)).take 1024).length ≤ 1024 := by
  constructor
  · simp [handle_preview, hex, hsec]
  · exact List.length_take_le _ _

/-- Witness for C6 (amended) at a three-byte file whose first byte is
not valid UTF-8. -/
theorem preview_bounded_best_effort_witness :
    handle_preview [(["srv", "server_storage", "alice", "n.txt"], [255, 104, 105])]
        ["srv", "server_storage", "alice"] "n.txt"
      = ⟨"success", "",
          some (decodeUtf8 false
            ((getFile [(["srv", "server_storage", "alice", "n.txt"], [255, 104, 105])]
              (targetPath ["srv", "server_storage", "alice"] "n.txt")).take 1024)),
          none⟩ ∧
    ((getFile [(["srv", "server_storage", "alice", "n.txt"], [255, 104, 105])]
        (targetPath ["srv", "server_storage", "alice"] "n.txt")).take 1024).length
      ≤ 1024 :=
  preview_bounded_best_effort
    [(["srv", "server_storage", "alice", "n.txt"], [255, 104, 105])]
    ["srv", "server_storage", "alice"] "n.txt" (by decide) (by decide)

/-- C6 (counterexample): on the stored bytes [0xFF, 'h', 'i'] the
handler returns the preview "hi" — the undecodable byte 0xFF is
dropped by `errors='ignore'` — whereas the claimed replacement
semantics would produce [U+FFFD, 'h', 'i']; the two decodes differ, so
"undecodable bytes are replaced" is false of the code. -/
theorem preview_drops_undecodable_bytes :
    handle_preview [(["srv", "server_storage", "alice", "n.txt"], [255, 104, 105])]
        ["srv", "server_storage", "alice"] "n.txt"
      = ⟨"success", "", some [104, 105], none⟩ ∧
    decodeUtf8 true [255, 104, 105] = [0xFFFD, 104, 105] ∧
    decodeUtf8 false [255, 104, 105] ≠ decodeUtf8 true [255, 104, 105] := by
  decide

/-! ## Authentication exchange (C7) -/

/-- Creating the user's directories twice is the same as creating them
once (`mkdir(exist_ok=True)` is idempotent). -/
theorem ensure_user_directory_idem (dirs : List (List String)) (u : String) :
    ensure_user_directory (ensure_user_directory dirs u) u
      = ensure_user_directory dirs u := by
  simp only [ensure_user_directory]
  split_ifs <;> simp_all [List.mem_append]

/-- C7: exactly one authentication attempt is permitted per connection
— the session model consumes a single credential record, and `authStep`
below decides its fate once and for all: a pair matching the credential
store moves the session to Ready after an idempotent creation of the
user's sandbox root, and a non-matching pair produces the single error
Response list and the terminated state, with no retry loop. -/
theorem auth_one_attempt (credFile : Option (List String))
    (dirs : List (List String)) (u p : String) :
    (authenticate_user credFile u p = true →
      authStep credFile dirs u p
        = .ready ["server_storage", u] (ensure_user_directory dirs u)
            [successResp "Authentication successful"]) ∧
    (authenticate_user credFile u p = false →
      authStep credFile dirs u p
        = .terminated [errorResp "Authentication failed"]) ∧
    ensure_user_directory (ensure_user_directory dirs u) u
      = ensure_user_directory dirs u := by
  refine ⟨fun h => ?_, fun h => ?_, ensure_user_directory_idem dirs u⟩
  · rw [authStep, if_pos h]
  · rw [authStep, if_neg (by simp [h])]

/-- Witness for C7: with the credential store "alice:pw123", the pair
(alice, pw123) reaches Ready and (alice, wrong) terminates. -/
theorem auth_one_attempt_witness :
    authStep (some ["alice:pw123"]) [] "alice" "pw123"
      = .ready ["server_storage", "alice"] (ensure_user_directory [] "alice")
          [successResp "Authentication successful"] ∧
    authStep (some ["alice:pw123"]) [] "alice" "wrong"
      = .terminated [errorResp "Authentication failed"] :=
  ⟨(auth_one_attempt (some ["alice:pw123"]) [] "alice" "pw123").1 (by decide),
   (auth_one_attempt (some ["alice:pw123"]) [] "alice" "wrong").2.1 (by decide)⟩

/-! ## Delete of a missing file and empty listing (C8) -/

/-- C8: deleting a file that does not exist in the sandbox returns the
well-formed "File not found" error Response with the file system
unchanged, and listing a sandbox with no entries returns a well-formed
success Response carrying the empty file list; both handlers are total
functions, so neither throws unrecoverably. -/
theorem delete_missing_and_list_empty (fs : FS) (userDir : List String)
    (filename : String)
    (hmiss : fileExists fs (targetPath userDir filename) = false)
    (hempty : ∀ e ∈ fs, e.1.dropLast ≠ userDir) :
    handle_delete fs userDir filename = (errorResp "File not found", fs) ∧
    list_files fs userDir = ⟨"success", "", none, some []⟩ := by
  constructor
  · simp [handle_delete, hmiss]
  · have hnil : fs.filterMap (fun e =>
        if e.1.dropLast == userDir then e.1.getLast? else none) = [] := by
      rw [List.filterMap_eq_nil_iff]
      intro e he
      simp [hempty e he]
    rw [list_files, hnil]

/-- Witness for C8: bob's stored file is invisible to alice's sandbox,
whose listing is empty and where deleting "ghost.txt" reports "File
not found" and changes nothing. -/
theorem delete_missing_and_list_empty_witness :
    handle_delete [(["server_storage", "bob", "x"], [1])]
        ["server_storage", "alice"] "ghost.txt"
      = (errorResp "File not found", [(["server_storage", "bob", "x"], [1])]) ∧
    list_files [(["server_storage", "bob", "x"], [1])] ["server_storage", "alice"]
      = ⟨"success", "", none, some []⟩ :=
  delete_missing_and_list_empty [(["server_storage", "bob", "x"], [1])]
    ["server_storage", "alice"] "ghost.txt" (by decide) (by decide)

/-! ## Credential check is fail-closed (C9) -/

/-- C9: the credential check is a total function (so it never raises:
every failure of the Python code is caught and becomes False) and it is
fail-closed — a missing or unreadable credential file yields False, and
a line that does not split into exactly one username and one password
around a single colon stops the scan with False even when a correctly
formatted matching line appears later in the file. -/
theorem authenticate_user_fail_closed (u p : String) (pre rest : List String)
    (bad : String) (hbad : parseLine bad = none)
    (hpre : ∀ l ∈ pre, parseLine l ≠ some (u, p)) :
    authenticate_user none u p = false ∧
    authenticate_user (some (pre ++ bad :: rest)) u p = false := by
  have main : ∀ (pr : List String), (∀ l ∈ pr, parseLine l ≠ some (u, p)) →
      authLoop u p (pr ++ bad :: rest) = false := by
    intro pr
    induction pr with
    | nil =>
      intro _
      simp [authLoop, hbad]
    | cons l pr' ih =>
      intro hp
      rw [List.cons_append]
      cases hpl : parseLine l with
      | none => simp [authLoop, hpl]
      | some sv =>
        obtain ⟨su, sp⟩ := sv
        have hne : ¬(su = u ∧ sp = p) := by
          rintro ⟨rfl, rfl⟩
          exact hp l (List.mem_cons_self _ _) hpl
        simp only [authLoop, hpl, if_neg hne]
        exact ih (fun l' hl' => hp l' (List.mem_cons_of_mem _ hl'))
  exact ⟨rfl, main pre hpre⟩

/-- Witness for C9: with the file "bob:pw", "corrupt line",
"alice:pw123", the pair (alice, pw123) is rejected although its
matching line follows the malformed one. -/
theorem authenticate_user_fail_closed_witness :
    authenticate_user none "alice" "pw123" = false ∧
    authenticate_user (some (["bob:pw"] ++ "corrupt line" :: ["alice:pw123"]))
        "alice" "pw123" = false :=
  authenticate_user_fail_closed "alice" "pw123" ["bob:pw"] ["alice:pw123"]
    "corrupt line" (by decide) (by decide)

end DFOS
